import Mathlib

/-!
Verification of the clonewars multi-target disk cloning scripts
(clone_dd.py, clone_rsync.py, live.py) against their design
specification.  The Python sources are shallowly embedded: pure
computations become Lean functions, external command effects become
explicit state transitions or abstract outcome parameters, and the
per-run control flow (shrink / clone / restore ordering, exception
handling) becomes trace-producing functions.
-/

namespace Clonewars

/-- Python str.startswith, translated over character lists. -/
def pyStartsWith (s p : String) : Bool := p.data.isPrefixOf s.data

/-- One child partition row reported by the block device enumerator
(lsblk NAME,FSTYPE), after the blkid probe fallback filled in a missing
filesystem type (empty string when even the probe failed). -/
structure Partition where
  name : String
  fstype : String
deriving DecidableEq, Repr

/-- One step of the boot/root scan loop in get_layout
(clone_dd.py lines 64-70, clone_rsync.py lines 58-64).  The accumulator
is the pair (boot_dev, root_dev). -/
def scanStep (acc : Option Partition × Option Partition) (p : Partition) :
    Option Partition × Option Partition :=
  if p.fstype == "vfat" && acc.1.isNone then (some p, acc.2)
  else if pyStartsWith p.fstype "ext" && acc.2.isNone then (acc.1, some p)
  else acc

/-- Boot/root classification of get_layout (clone_dd.py lines 55-85,
clone_rsync.py lines 49-79): a single data partition is the root with
no boot partition; otherwise the scan loop picks the first vfat
partition as boot and the first ext-prefixed partition as root, with
the last partition as root fallback; none means the script hits
sys.exit(1). -/
def get_layout_classify (ps : List Partition) :
    Option (Option Partition × Partition) :=
  if ps.length == 1 then
    match ps with
    | [p] => some (none, p)
    | _ => none
  else
    let s := ps.foldl scanStep (none, none)
    let rootD : Option Partition :=
      match s.2 with
      | some r => some r
      | none => ps.getLast?
    match rootD with
    | some r => some (s.1, r)
    | none => none

/-- First of two options, matching Python "if not x: x = y" updating. -/
def firstSome (a b : Option Partition) : Option Partition :=
  match a with
  | some x => some x
  | none => b

lemma vfat_not_ext {s : String} (h : (s == "vfat") = true) :
    pyStartsWith s "ext" = false := by
  have hs : s = "vfat" := by simpa using h
  subst hs
  decide

lemma foldl_scanStep (ps : List Partition) (b r : Option Partition) :
    ps.foldl scanStep (b, r) =
      (firstSome b (ps.find? fun p => p.fstype == "vfat"),
       firstSome r (ps.find? fun p => pyStartsWith p.fstype "ext")) := by
  induction ps generalizing b r with
  | nil => cases b <;> cases r <;> simp [firstSome]
  | cons p tl ih =>
    simp only [List.foldl_cons, List.find?]
    by_cases hv : (p.fstype == "vfat") = true
    · have he : pyStartsWith p.fstype "ext" = false := vfat_not_ext hv
      cases b with
      | none =>
        simp [scanStep, hv, he, ih, firstSome]
      | some x =>
        simp [scanStep, hv, he, ih, firstSome]
    · have hv' : (p.fstype == "vfat") = false := by
        simpa using hv
      by_cases he : pyStartsWith p.fstype "ext" = true
      · cases r with
        | none =>
          simp [scanStep, hv', he, ih, firstSome]
        | some x =>
          simp [scanStep, hv', he, ih, firstSome]
      · have he' : pyStartsWith p.fstype "ext" = false := by
          simpa using he
        simp [scanStep, hv', he', ih, firstSome]

/-- C6: a single data partition becomes the root with no boot
partition; otherwise the first vfat partition in table order becomes
boot and the first ext-prefixed partition becomes root, falling back to
the last partition when no ext partition exists; detection fails
fatally exactly when the partition table is empty. -/
theorem layout_detection_characterization (ps : List Partition) :
    (∀ p, ps = [p] → get_layout_classify ps = some (none, p)) ∧
    (ps.length ≠ 1 →
      get_layout_classify ps =
        match ps.getLast? with
        | none => none
        | some lastP =>
            some (ps.find? (fun p => p.fstype == "vfat"),
                  (ps.find? fun p => pyStartsWith p.fstype "ext").getD lastP)) ∧
    (get_layout_classify ps = none ↔ ps = []) := by
  refine ⟨?_, ?_, ?_⟩
  · intro p hp
    subst hp
    rfl
  · intro hlen
    have hlen' : (ps.length == 1) = false := by
      simpa using hlen
    simp only [get_layout_classify, hlen', Bool.false_eq_true, if_false,
      foldl_scanStep, firstSome]
    cases hext : ps.find? fun p => pyStartsWith p.fstype "ext" with
    | none =>
      cases hlast : ps.getLast? with
      | none => rfl
      | some lastP => rfl
    | some r =>
      cases hlast : ps.getLast? with
      | none =>
        have hnil : ps = [] := by
          cases ps with
          | nil => rfl
          | cons a tl => simp [List.getLast?] at hlast
        subst hnil
        simp at hext
      | some lastP => rfl
  · constructor
    · intro h
      by_contra hne
      cases ps with
      | nil => exact hne rfl
      | cons a tl =>
        by_cases h1 : ((a :: tl).length == 1) = true
        · have : tl = [] := by
            cases tl with
            | nil => rfl
            | cons b tb => simp at h1
          subst this
          simp [get_layout_classify] at h
        · have h1' : ((a :: tl).length == 1) = false := by
            simpa using h1
          simp only [get_layout_classify, h1', Bool.false_eq_true, if_false,
            foldl_scanStep, firstSome] at h
          have hlast : (a :: tl).getLast? = some ((a :: tl).getLast (by simp)) :=
            List.getLast?_eq_getLast (a :: tl) (by simp)
          rw [hlast] at h
          cases hext : (a :: tl).find? fun p => pyStartsWith p.fstype "ext" with
          | none => rw [hext] at h; simp at h
          | some r => rw [hext] at h; simp at h
    · intro h
      subst h
      rfl

/-- Witness for C6: a concrete dual-partition table with vfat boot and
ext4 root, evaluated through the characterization theorem. -/
theorem layout_detection_characterization_witness :
    get_layout_classify [⟨"sdb1", "vfat"⟩, ⟨"sdb2", "ext4"⟩] =
      some (some ⟨"sdb1", "vfat"⟩, ⟨"sdb2", "ext4"⟩) := by
  rw [(layout_detection_characterization
    [⟨"sdb1", "vfat"⟩, ⟨"sdb2", "ext4"⟩]).2.1 (by decide)]
  decide

/-! Required-bytes computation of get_layout in clone_rsync.py
(lines 94-117) and live.py (lines 35-39). -/

/-- Source-side quantities probed by get_layout in clone_rsync.py:
root partition start sector and current size in bytes (lsblk), root
filesystem type, the ext block size reported by dumpe2fs and the
minimum block count reported by resize2fs -P. -/
structure SourceProbe where
  rootStart : Nat
  rootSizeBytes : Nat
  rootFstype : String
  dumpBlockSize : Nat
  minBlocks : Nat
deriving DecidableEq, Repr

/-- Minimum filesystem byte estimate of clone_rsync.py lines 95-115:
min_blocks * block_size for an ext-prefixed root, otherwise the current
partition size. -/
def min_fs_bytes (s : SourceProbe) : Nat :=
  if pyStartsWith s.rootFstype "ext" then s.minBlocks * s.dumpBlockSize
  else s.rootSizeBytes

/-- Line 117 of clone_rsync.py: required_total_bytes =
(root_start * 512) + min_fs_bytes. -/
def required_total_bytes (s : SourceProbe) : Nat :=
  s.rootStart * 512 + min_fs_bytes s

/-- Modelled from the spec: requiredBytes = rootPartition.start*512 +
estimatedMinimumFilesystemBytes, with estimate blockSize *
minimumBlockCount for ext filesystems and the current partition size
for non-ext filesystems.  Stated separately so the code-derived value
can be compared against the spec formula. -/
def requiredBytesSpec (s : SourceProbe) : Nat :=
  s.rootStart * 512 +
    (if pyStartsWith s.rootFstype "ext" then s.dumpBlockSize * s.minBlocks
     else s.rootSizeBytes)

/-- C3: the required-bytes value computed by get_layout equals the spec
formula rootStart*512 + estimatedMinimumFilesystemBytes for every
probed source state; the computation takes only source-side inputs, so
it never references any target. -/
theorem required_total_bytes_spec (s : SourceProbe) :
    required_total_bytes s = requiredBytesSpec s := by
  unfold required_total_bytes requiredBytesSpec min_fs_bytes
  by_cases h : pyStartsWith s.rootFstype "ext" = true
  · simp [h, Nat.mul_comm]
  · simp [h]

/-! Shrink decision of clone_dd.py main (lines 338-344). -/

/-- Unshrunk end offset of the source root in bytes, clone_dd.py
line 298: source_end = root_start * 512 + root_size. -/
def source_end (rootStart rootSizeBytes : Int) : Int :=
  rootStart * 512 + rootSizeBytes

/-- Python min over a nonempty sequence, first element then the rest. -/
def pyMin (x : Int) (xs : List Int) : Int := xs.foldl min x

/-- Line 344 of clone_dd.py: needs_shrink = source_end >
(min_target_size - 64 * 1024 * 1024), over Python integers. -/
def needs_shrink (sourceEnd minTargetSize : Int) : Bool :=
  decide (sourceEnd > minTargetSize - 64 * 1024 * 1024)

/-- Shrink decision of a run with targets of sizes size0 :: sizes. -/
def needs_shrink_run (rootStart rootSizeBytes size0 : Int)
    (sizes : List Int) : Bool :=
  needs_shrink (source_end rootStart rootSizeBytes) (pyMin size0 sizes)

lemma pyMin_le_head (x : Int) (xs : List Int) : pyMin x xs ≤ x := by
  induction xs generalizing x with
  | nil => exact le_refl x
  | cons a tl ih =>
    have h : pyMin x (a :: tl) = pyMin (min x a) tl := rfl
    rw [h]
    exact le_trans (ih (min x a)) (min_le_left x a)

lemma pyMin_le_mem (x : Int) (xs : List Int) : ∀ y ∈ xs, pyMin x xs ≤ y := by
  induction xs generalizing x with
  | nil =>
    intro y hy
    simp at hy
  | cons a tl ih =>
    intro y hy
    have h : pyMin x (a :: tl) = pyMin (min x a) tl := rfl
    rw [h]
    rcases List.mem_cons.mp hy with h1 | h2
    · rw [h1]
      exact le_trans (pyMin_le_head (min x a) tl) (min_le_right x a)
    · exact ih (min x a) y h2

lemma pyMin_mem (x : Int) (xs : List Int) : pyMin x xs = x ∨ pyMin x xs ∈ xs := by
  induction xs generalizing x with
  | nil =>
    left
    rfl
  | cons a tl ih =>
    have h : pyMin x (a :: tl) = pyMin (min x a) tl := rfl
    rw [h]
    rcases ih (min x a) with h1 | h2
    · rcases min_choice x a with hc | hc
      · left
        rw [h1, hc]
      · right
        rw [h1, hc]
        exact List.mem_cons_self a tl
    · right
      exact List.mem_cons_of_mem a h2

/-- C4: the shrink decision of clone_dd.py fires exactly when the
unshrunk source root end offset in bytes strictly exceeds the smallest
target capacity minus 64 MiB; pyMin really is the smallest discovered
target capacity (a member of the capacity list and a lower bound of
it). -/
theorem shrink_decision_rule (rootStart rootSizeBytes size0 : Int)
    (sizes : List Int) :
    (needs_shrink_run rootStart rootSizeBytes size0 sizes = true ↔
      rootStart * 512 + rootSizeBytes > pyMin size0 sizes - 64 * 1024 * 1024) ∧
    (pyMin size0 sizes = size0 ∨ pyMin size0 sizes ∈ sizes) ∧
    pyMin size0 sizes ≤ size0 ∧
    (∀ y ∈ sizes, pyMin size0 sizes ≤ y) := by
  refine ⟨?_, pyMin_mem size0 sizes, pyMin_le_head size0 sizes,
    pyMin_le_mem size0 sizes⟩
  unfold needs_shrink_run needs_shrink source_end
  exact decide_eq_true_iff

/-- Witness for C4: scenario A numbers, a 6.8 GB source root end and a
smallest target of 8 GB, for which the decision rule does not fire, and
a 16 GB second target which pyMin bounds from below. -/
theorem shrink_decision_rule_witness :
    needs_shrink_run 2048 6798951424 8000000000 [16000000000] = false ∧
    pyMin 8000000000 [16000000000] ≤ 16000000000 := by
  refine ⟨?_, (shrink_decision_rule 2048 6798951424 8000000000
    [16000000000]).2.2.2 16000000000 (by decide)⟩
  have h := (shrink_decision_rule 2048 6798951424 8000000000 [16000000000]).1
  by_contra hne
  have ht : needs_shrink_run 2048 6798951424 8000000000 [16000000000] = true := by
    revert hne
    cases needs_shrink_run 2048 6798951424 8000000000 [16000000000] <;> simp
  have := h.mp ht
  revert this
  decide

/-! Shrink executor of clone_dd.py (shrink_source, lines 105-177) and
the cutoff computation of main (lines 384-387). -/

/-- Block size and block count of the source ext filesystem as reported
by tune2fs -l. -/
structure ExtFsState where
  blockSize : Nat
  blockCount : Nat
deriving DecidableEq, Repr

/-- shrink_source of clone_dd.py: a non-ext (or unreported) root
filesystem is never shrunk and the unshrunk end offset is returned;
for an ext root, resize2fs -M shrinks the filesystem to minimum
(modelled by the resizeToMin transition on the filesystem state), the
block size and count are then re-read from the post-shrink state, and
the new partition end rootStart*512 + blockSize*blockCount + 200 MiB is
returned together with the new state. -/
def shrink_source (rootFstype : String) (rootStart rootSizeBytes : Nat)
    (resizeToMin : ExtFsState → ExtFsState) (fs : ExtFsState) :
    Nat × ExtFsState :=
  if rootFstype == "" || !(pyStartsWith rootFstype "ext") then
    (rootStart * 512 + rootSizeBytes, fs)
  else
    let shrunk := resizeToMin fs
    let fsSizeBytes := shrunk.blockSize * shrunk.blockCount + 200 * 1024 * 1024
    (rootStart * 512 + fsSizeBytes, shrunk)

/-- Lines 384-387 of clone_dd.py main: cutoff_byte = shrink_source(...)
when the shrink decision fired, else the unshrunk source end. -/
def cutoff_byte (needsShrink : Bool) (rootFstype : String)
    (rootStart rootSizeBytes : Nat) (resizeToMin : ExtFsState → ExtFsState)
    (fs : ExtFsState) : Nat :=
  if needsShrink then
    (shrink_source rootFstype rootStart rootSizeBytes resizeToMin fs).1
  else rootStart * 512 + rootSizeBytes

lemma pyStartsWith_empty_ext : pyStartsWith "" "ext" = false := by decide

/-- C5: when no shrink is performed (decision rule did not fire, or the
root filesystem is non-ext so shrinking is skipped) the cutoff equals
the unshrunk end offset rootStart*512 + rootSize; when an ext shrink is
performed the cutoff equals rootStart*512 + blockSize*blockCount +
200 MiB with block size and count read from the post-shrink filesystem
state. -/
theorem cutoff_byte_spec (ns : Bool) (fstype : String) (start sz : Nat)
    (resizeToMin : ExtFsState → ExtFsState) (fs : ExtFsState) :
    ((ns = false ∨ pyStartsWith fstype "ext" = false) →
      cutoff_byte ns fstype start sz resizeToMin fs = start * 512 + sz) ∧
    (ns = true → pyStartsWith fstype "ext" = true →
      cutoff_byte ns fstype start sz resizeToMin fs =
        start * 512 + ((resizeToMin fs).blockSize * (resizeToMin fs).blockCount
          + 200 * 1024 * 1024)) := by
  constructor
  · rintro (h | h)
    · subst h
      rfl
    · cases ns with
      | false => rfl
      | true =>
        simp only [cutoff_byte, if_true, shrink_source, h]
        simp
  · intro hns hext
    subst hns
    have hne : (fstype == "") = false := by
      cases hb : fstype == "" with
      | false => rfl
      | true =>
        have hfs : fstype = "" := by simpa using hb
        rw [hfs] at hext
        exact absurd hext (by decide)
    simp only [cutoff_byte, if_true, shrink_source, hne, hext]
    simp

/-- Witness for C5: concrete evaluations of both branches, a non-ext
ntfs root with no shrink and an ext4 root shrunk to 250000 blocks of
4096 bytes. -/
theorem cutoff_byte_spec_witness :
    cutoff_byte false "ntfs" 2048 15000000000
      (fun s => s) ⟨4096, 3662109⟩ = 2048 * 512 + 15000000000 ∧
    cutoff_byte true "ext4" 2048 15000000000
      (fun _ => ⟨4096, 250000⟩) ⟨4096, 3662109⟩ =
      2048 * 512 + (4096 * 250000 + 200 * 1024 * 1024) := by
  constructor
  · exact (cutoff_byte_spec false "ntfs" 2048 15000000000
      (fun s => s) ⟨4096, 3662109⟩).1 (Or.inl rfl)
  · exact (cutoff_byte_spec true "ext4" 2048 15000000000
      (fun _ => ⟨4096, 250000⟩) ⟨4096, 3662109⟩).2 rfl (by decide)

/-! Shrink / clone / restore control flow of clone_dd.py main
(lines 384-408): shrink_source runs when the decision fired (mutating
the source only for an ext root), the clone phase runs inside a try
block, and the finally block calls restore_source exactly when
needs_shrink is true — whether the clone phase completed or raised. -/

/-- Observable device-mutating events of the run tail. -/
inductive Event where
  | shrinkFs
  | cloneJob (target : String) (ok : Bool)
  | restore
deriving DecidableEq, Repr

/-- Outcome of the clone phase: either every per-target job ran to its
own completion (ok or caught failure), or an exception propagated out
of the phase after some of the jobs ran. -/
inductive CloneOutcome where
  | completed (results : List (String × Bool))
  | raised (ranBefore : List (String × Bool))
deriving Repr

/-- Clone events emitted by the clone phase before control reaches the
finally block; Python finally runs in both cases. -/
def clone_phase_events : CloneOutcome → List Event
  | .completed rs => rs.map fun r => .cloneJob r.1 r.2
  | .raised rs => rs.map fun r => .cloneJob r.1 r.2

/-- Event trace of clone_dd.py main from the shrink decision to process
exit: shrink_source mutates the source filesystem only when the
decision fired and the root is ext (lines 109-112 return early
otherwise); the finally block at lines 405-408 runs restore_source
exactly when needs_shrink is true, for every clone outcome. -/
def run_events (needsShrink isExt : Bool) (outcome : CloneOutcome) :
    List Event :=
  (if needsShrink && isExt then [Event.shrinkFs] else []) ++
  clone_phase_events outcome ++
  (if needsShrink then [Event.restore] else [])

/-- A shrink occurred in the run when the trace holds the source
filesystem shrink event. -/
def shrink_occurred (tr : List Event) : Bool := decide (Event.shrinkFs ∈ tr)

/-- Number of times the Restore step executed in the run. -/
def restore_count (tr : List Event) : Nat := tr.count .restore

/-- Counterexample to C1: when the shrink decision fires on a non-ext
root (here with one successfully cloned target), shrink_source skips
the shrink — no shrink occurs — yet the finally block still executes
Restore once, so a run with no shrink does run Restore. -/
theorem restore_without_shrink_counterexample :
    shrink_occurred (run_events true false
      (.completed [("sdc", true)])) = false ∧
    restore_count (run_events true false
      (.completed [("sdc", true)])) = 1 := by
  decide

lemma clone_phase_no_restore (outcome : CloneOutcome) :
    Event.restore ∉ clone_phase_events outcome := by
  cases outcome with
  | completed rs =>
    intro h
    simp only [clone_phase_events, List.mem_map] at h
    obtain ⟨r, _, hr⟩ := h
    exact Event.noConfusion hr
  | raised rs =>
    intro h
    simp only [clone_phase_events, List.mem_map] at h
    obtain ⟨r, _, hr⟩ := h
    exact Event.noConfusion hr

lemma clone_phase_no_shrink (outcome : CloneOutcome) :
    Event.shrinkFs ∉ clone_phase_events outcome := by
  cases outcome with
  | completed rs =>
    intro h
    simp only [clone_phase_events, List.mem_map] at h
    obtain ⟨r, _, hr⟩ := h
    exact Event.noConfusion hr
  | raised rs =>
    intro h
    simp only [clone_phase_events, List.mem_map] at h
    obtain ⟨r, _, hr⟩ := h
    exact Event.noConfusion hr

/-- C1 amended: Restore executes exactly once when the shrink decision
fired and never otherwise, for every clone outcome (all jobs completed,
all failed, mixed, or an exception propagating out of the phase); an
actual shrink of the source happens exactly when the decision fired and
the root is ext; and when Restore runs it is the final event, after
every clone event. -/
theorem restore_iff_decision (ns isExt : Bool) (outcome : CloneOutcome) :
    restore_count (run_events ns isExt outcome) = (if ns then 1 else 0) ∧
    shrink_occurred (run_events ns isExt outcome) = (ns && isExt) ∧
    (ns = true → ∃ pre, run_events ns isExt outcome = pre ++ [Event.restore] ∧
      Event.restore ∉ pre) := by
  refine ⟨?_, ?_, ?_⟩
  · unfold restore_count run_events
    rw [List.count_append, List.count_append]
    have h1 : (clone_phase_events outcome).count Event.restore = 0 :=
      List.count_eq_zero.mpr (clone_phase_no_restore outcome)
    cases ns <;> cases isExt <;> simp [h1]
  · unfold shrink_occurred run_events
    cases ns <;> cases isExt <;>
      simp [clone_phase_no_shrink outcome]
  · intro hns
    subst hns
    refine ⟨(if isExt then [Event.shrinkFs] else []) ++
      clone_phase_events outcome, ?_, ?_⟩
    · unfold run_events
      cases isExt <;> simp
    · intro h
      rcases List.mem_append.mp h with h1 | h2
      · cases isExt with
        | false => simp at h1
        | true =>
          simp at h1
      · exact clone_phase_no_restore outcome h2

/-- Witness for C1 amended: a run with the decision fired on an ext
root and an exception propagating out of the clone phase still restores
exactly once, with Restore last. -/
theorem restore_iff_decision_witness :
    restore_count (run_events true true (.raised [("sdc", false)])) = 1 ∧
    (∃ pre, run_events true true (.raised [("sdc", false)]) =
      pre ++ [Event.restore] ∧ Event.restore ∉ pre) := by
  have h := restore_iff_decision true true (.raised [("sdc", false)])
  exact ⟨h.1, h.2.2 rfl⟩

/-! Target admission (clone_rsync.py clone_target lines 165-168,
clone_dd.py main dry-run lines 375-380) and the per-target exception
boundary (clone_dd.py clone_target lines 180-239, clone_rsync.py
clone_target lines 158-310). -/

/-- Result of one clone job in the file-sync strategy. -/
inductive JobResult where
  | tooSmall
  | completed
  | failed (msg : String)
deriving DecidableEq, Repr

/-- clone_target of clone_rsync.py with the admission step explicit and
the rest of the job body abstracted as a computation that either
finishes or raises: a candidate with capacity below
required_total_bytes is skipped with an early return (lines 166-168),
an admitted body that raises is caught by the except clause at line 309
and marked failed, and nothing propagates out of the call. -/
def clone_target_rs (capacityBytes requiredTotalBytes : Nat)
    (body : Except String Unit) : JobResult :=
  if capacityBytes < requiredTotalBytes then .tooSmall
  else
    match body with
    | .ok _ => .completed
    | .error e => .failed e

/-- Dry-run admission line of clone_dd.py (line 379): OK when the
capacity is at least the required byte count. -/
def dry_run_status (sizeBytes requiredBytes : Nat) : String :=
  if sizeBytes ≥ requiredBytes then "OK" else "TOO SMALL"

/-- Batch of file-sync jobs: one independent clone_target call per
candidate, in order. -/
def run_batch_rs (requiredTotalBytes : Nat)
    (jobs : List (Nat × Except String Unit)) : List JobResult :=
  jobs.map fun j => clone_target_rs j.1 requiredTotalBytes j.2

/-- C2: admission succeeds exactly when capacity is at least the
required bytes — capacity equal to requiredBytes is admitted and one
byte short is rejected as too small; the dry-run status agrees; and a
rejected candidate is skipped without affecting the batch: the batch
result still has one entry per candidate and each entry depends only on
that candidate. -/
theorem admission_boundary (required capacity : Nat)
    (body : Except String Unit)
    (jobs : List (Nat × Except String Unit)) :
    (clone_target_rs capacity required body ≠ .tooSmall ↔
      required ≤ capacity) ∧
    clone_target_rs required required body ≠ .tooSmall ∧
    (0 < required → clone_target_rs (required - 1) required body = .tooSmall) ∧
    (dry_run_status capacity required = "OK" ↔ required ≤ capacity) ∧
    (run_batch_rs required jobs).length = jobs.length ∧
    (∀ i : Fin jobs.length,
      (run_batch_rs required jobs).get ⟨i, by simp [run_batch_rs]⟩ =
        clone_target_rs (jobs.get i).1 required (jobs.get i).2) := by
  refine ⟨?_, ?_, ?_, ?_, ?_, ?_⟩
  · constructor
    · intro h
      by_contra hlt
      have hc : capacity < required := Nat.lt_of_not_le hlt
      exact h (by simp [clone_target_rs, hc])
    · intro hle h
      have hnlt : ¬ capacity < required := Nat.not_lt_of_le hle
      unfold clone_target_rs at h
      rw [if_neg hnlt] at h
      cases body with
      | ok u => exact JobResult.noConfusion h
      | error e => exact JobResult.noConfusion h
  · intro h
    unfold clone_target_rs at h
    rw [if_neg (Nat.lt_irrefl required)] at h
    cases body with
    | ok u => exact JobResult.noConfusion h
    | error e => exact JobResult.noConfusion h
  · intro hpos
    have hlt : required - 1 < required := Nat.sub_lt hpos Nat.one_pos
    simp [clone_target_rs, hlt]
  · unfold dry_run_status
    constructor
    · intro h
      by_contra hlt
      rw [if_neg (by simpa using Nat.lt_of_not_le hlt)] at h
      exact absurd h (by decide)
    · intro hle
      rw [if_pos hle]
  · simp [run_batch_rs]
  · intro i
    simp [run_batch_rs]

/-- Witness for C2: required 10 GB with the exact-size target admitted,
a one-byte-short target rejected, and scenario C sizes 8/16/4 GB giving
one rejection that leaves the two admitted siblings untouched. -/
theorem admission_boundary_witness :
    clone_target_rs 10000000000 10000000000 (.ok ()) ≠ .tooSmall ∧
    clone_target_rs (10000000000 - 1) 10000000000 (.ok ()) = .tooSmall ∧
    run_batch_rs 10000000000
      [(16000000000, .ok ()), (4000000000, .ok ()), (12000000000, .ok ())] =
      [.completed, .tooSmall, .completed] := by
  have h := admission_boundary 10000000000 10000000000 (.ok ())
    [(16000000000, .ok ()), (4000000000, .ok ()), (12000000000, .ok ())]
  exact ⟨h.2.1, h.2.2.1 (by decide), by decide⟩

/-- clone_target of clone_dd.py with the whole try body abstracted: an
exception raised anywhere in the body is caught at line 238 and logged
as a FAILED line naming the target device, and the call itself always
returns normally. -/
def clone_target_dd (target : String) (body : Except String Unit) :
    List String × Except String Unit :=
  match body with
  | .ok _ => ([], .ok ())
  | .error e => (["FAILED /dev/" ++ target ++ ": " ++ e], .ok ())

/-- Sequential clone phase over the per-target jobs, propagating any
exception a job call lets escape (none can, since clone_target
catches). -/
def run_jobs : List (String × Except String Unit) →
    Except String (List String)
  | [] => .ok []
  | j :: rest =>
    match clone_target_dd j.1 j.2 with
    | (log, .ok _) =>
      match run_jobs rest with
      | .ok logs => .ok (log ++ logs)
      | .error e => .error e
    | (_, .error e) => .error e

/-- C8: every exception raised inside a clone job is caught at the job
boundary and logged with the target identifier; the batch runs every
job and always finishes normally — its log is exactly one FAILED line
per failing target, so no job failure aborts siblings or the batch. -/
theorem per_target_isolation (jobs : List (String × Except String Unit)) :
    run_jobs jobs = .ok (jobs.filterMap fun j =>
      match j.2 with
      | .error e => some ("FAILED /dev/" ++ j.1 ++ ": " ++ e)
      | .ok _ => none) ∧
    (∀ t e, clone_target_dd t (.error e) =
      (["FAILED /dev/" ++ t ++ ": " ++ e], .ok ())) := by
  refine ⟨?_, fun t e => rfl⟩
  induction jobs with
  | nil => rfl
  | cons j rest ih =>
    cases hb : j.2 with
    | ok u =>
      simp only [run_jobs, clone_target_dd, hb, ih, List.filterMap_cons]
      simp
    | error e =>
      simp only [run_jobs, clone_target_dd, hb, ih, List.filterMap_cons]
      simp

/-! Root formatting step of the file-sync strategy
(clone_rsync.py clone_target lines 218-244, live.py clone_target
lines 90-92). -/

/-- One mkfs invocation: the tool dispatched on the source filesystem
type and the UUID argument when passed (the -U flag). -/
structure MkfsInvocation where
  tool : String
  uuidArg : Option String
deriving DecidableEq, Repr

/-- Format dispatch of clone_rsync.py lines 221-244: ext roots are
formatted with mkfs.ext4 passing -U source-uuid; ntfs, vfat/fat32 and
exfat roots use their own mkfs without a UUID argument; any other type
falls back to mkfs.ext4 without a UUID argument. -/
def format_root (fstype uuid : String) : MkfsInvocation :=
  if pyStartsWith fstype "ext" then ⟨"mkfs.ext4", some uuid⟩
  else if fstype == "ntfs" then ⟨"mkfs.ntfs", none⟩
  else if fstype == "vfat" || fstype == "fat32" then ⟨"mkfs.vfat", none⟩
  else if fstype == "exfat" then ⟨"mkfs.exfat", none⟩
  else ⟨"mkfs.ext4", none⟩

/-- Format step of live.py lines 90-92: always mkfs.ext4 with the
source root UUID (live.py only detects ext roots). -/
def format_root_live (uuid : String) : MkfsInvocation :=
  ⟨"mkfs.ext4", some uuid⟩

/-- Counterexample to C7: an ntfs source root is formatted without any
UUID argument, so the fresh filesystem does not carry the source UUID;
and an unrecognized source type (btrfs) is formatted as ext4, not with
the source filesystem type, also without the UUID. -/
theorem format_uuid_counterexample :
    (format_root "ntfs" "ABCD-1234").uuidArg = none ∧
    (format_root "btrfs" "ABCD-1234").tool = "mkfs.ext4" ∧
    (format_root "btrfs" "ABCD-1234").uuidArg = none := by
  decide

/-- C7 amended: the file-sync strategy formats an ext root with
mkfs.ext4 and explicitly sets the source root UUID, but only ext roots
get the UUID — ntfs, vfat/fat32 and exfat roots are formatted with the
matching mkfs tool and a fresh UUID, and any other type falls back to
mkfs.ext4 with a fresh UUID; live.py always formats ext4 with the
source UUID. -/
theorem format_root_amended (fstype uuid : String) :
    ((format_root fstype uuid).uuidArg = some uuid ↔
      pyStartsWith fstype "ext" = true) ∧
    ((format_root fstype uuid).uuidArg = none ↔
      pyStartsWith fstype "ext" = false) ∧
    (pyStartsWith fstype "ext" = true →
      format_root fstype uuid = ⟨"mkfs.ext4", some uuid⟩) ∧
    (fstype = "ntfs" → format_root fstype uuid = ⟨"mkfs.ntfs", none⟩) ∧
    (fstype = "vfat" ∨ fstype = "fat32" →
      format_root fstype uuid = ⟨"mkfs.vfat", none⟩) ∧
    (fstype = "exfat" → format_root fstype uuid = ⟨"mkfs.exfat", none⟩) ∧
    (pyStartsWith fstype "ext" = false → fstype ≠ "ntfs" → fstype ≠ "vfat" →
      fstype ≠ "fat32" → fstype ≠ "exfat" →
      format_root fstype uuid = ⟨"mkfs.ext4", none⟩) ∧
    format_root_live uuid = ⟨"mkfs.ext4", some uuid⟩ := by
  refine ⟨?_, ?_, ?_, ?_, ?_, ?_, ?_, rfl⟩
  · by_cases h : pyStartsWith fstype "ext" = true
    · simp [format_root, h]
    · have h' : pyStartsWith fstype "ext" = false := by simpa using h
      unfold format_root
      rw [h']
      simp only [Bool.false_eq_true, if_false, h']
      constructor
      · intro hx
        by_cases h1 : (fstype == "ntfs") = true
        · rw [if_pos h1] at hx
          exact absurd hx (by simp)
        · rw [if_neg h1] at hx
          by_cases h2 : (fstype == "vfat" || fstype == "fat32") = true
          · rw [if_pos h2] at hx
            exact absurd hx (by simp)
          · rw [if_neg h2] at hx
            by_cases h3 : (fstype == "exfat") = true
            · rw [if_pos h3] at hx
              exact absurd hx (by simp)
            · rw [if_neg h3] at hx
              exact absurd hx (by simp)
      · intro hx
        exact absurd hx (by simp)
  · by_cases h : pyStartsWith fstype "ext" = true
    · simp [format_root, h]
    · have h' : pyStartsWith fstype "ext" = false := by simpa using h
      unfold format_root
      rw [h']
      simp only [Bool.false_eq_true, if_false, h']
      constructor
      · intro _
        trivial
      · intro _
        by_cases h1 : (fstype == "ntfs") = true
        · rw [if_pos h1]
        · rw [if_neg h1]
          by_cases h2 : (fstype == "vfat" || fstype == "fat32") = true
          · rw [if_pos h2]
          · rw [if_neg h2]
            by_cases h3 : (fstype == "exfat") = true
            · rw [if_pos h3]
            · rw [if_neg h3]
  · intro h
    simp [format_root, h]
  · intro h
    subst h
    rfl
  · rintro (h | h) <;> (subst h; rfl)
  · intro h
    subst h
    rfl
  · intro h h1 h2 h3 h4
    unfold format_root
    rw [h]
    simp only [Bool.false_eq_true, if_false]
    rw [if_neg (by simpa using h1), if_neg (by simp [h2, h3]),
      if_neg (by simpa using h4)]

/-- Witness for C7 amended: concrete ext4 and exfat sources evaluated
through the amended theorem. -/
theorem format_root_amended_witness :
    format_root "ext4" "UU-1" = ⟨"mkfs.ext4", some "UU-1"⟩ ∧
    format_root "exfat" "UU-1" = ⟨"mkfs.exfat", none⟩ := by
  exact ⟨(format_root_amended "ext4" "UU-1").2.2.1 (by decide),
    (format_root_amended "exfat" "UU-1").2.2.2.2.2.1 rfl⟩

/-! Operations executed before the pre-clone confirmation pause
(clone_dd.py main lines 296-389, clone_rsync.py main lines 343-392). -/

/-- Operations the scripts perform before the confirmation pause,
tagged with the device class they touch: read-only probes, source
mutations inside shrink_source, or an operation on a target device. -/
inductive PhaseOp where
  | readTopology
  | pollTargets
  | zeroFill
  | fsck
  | resizeFsToMin
  | resizePartShrink
  | settle
  | targetOp (target : String)
deriving DecidableEq, Repr

/-- A pre-pause operation that mutates the source device: the
zero-fill sentinel write, resize2fs -M and the parted resizepart
shrink; probes, fsck -p and settle are read/repair steps left
non-mutating here. -/
def mutates_source : PhaseOp → Bool
  | .zeroFill => true
  | .resizeFsToMin => true
  | .resizePartShrink => true
  | _ => false

/-- A pre-pause operation that mutates some target device. -/
def mutates_target : PhaseOp → Bool
  | .targetOp _ => true
  | _ => false

/-- Operations of shrink_source (clone_dd.py lines 105-177) in program
order: nothing for a non-ext root (lines 109-112 return early);
otherwise optional zero-fill, fsck, resize2fs -M, parted resizepart,
udevadm settle. -/
def shrink_source_ops (isExt skipZerofill : Bool) : List PhaseOp :=
  if !isExt then []
  else
    (if skipZerofill then [] else [.zeroFill]) ++
    [.fsck, .resizeFsToMin, .resizePartShrink, .settle]

/-- Operations clone_dd.py main performs before the confirmation pause
at line 389: layout probing, target discovery polling, and — when the
shrink decision fired — the shrink_source operations. -/
def pre_pause_ops_dd (needsShrink isExt skipZerofill : Bool) :
    List PhaseOp :=
  [.readTopology, .pollTargets] ++
  (if needsShrink then shrink_source_ops isExt skipZerofill else [])

/-- Operations clone_rsync.py main performs before the confirmation
pause at line 392: only read-only probing and discovery polling. -/
def pre_pause_ops_rs : List PhaseOp := [.readTopology, .pollTargets]

/-- Counterexample to C9: in clone_dd.py, when the shrink decision
fired on an ext root, the source filesystem has already been shrunk
(resize2fs -M, a destructive source mutation) before the confirmation
pause — even with zero-fill skipped — so an interrupt at the pause is
not prior to every destructive operation. -/
theorem pre_pause_mutation_counterexample :
    PhaseOp.resizeFsToMin ∈ pre_pause_ops_dd true true true ∧
    mutates_source .resizeFsToMin = true := by
  decide

/-- C9 amended: an interrupt at the confirmation pause always arrives
before any operation on any target; in clone_rsync.py nothing mutating
precedes the pause at all; in clone_dd.py some source mutation precedes
the pause exactly when the shrink decision fired on an ext root, and
only then does the interrupt leave mutated device state behind. -/
theorem pre_pause_mutation (ns isExt skipZerofill : Bool) :
    (pre_pause_ops_dd ns isExt skipZerofill).any mutates_target = false ∧
    pre_pause_ops_rs.any mutates_target = false ∧
    pre_pause_ops_rs.any mutates_source = false ∧
    (pre_pause_ops_dd ns isExt skipZerofill).any mutates_source =
      (ns && isExt) := by
  cases ns <;> cases isExt <;> cases skipZerofill <;> decide

/-! Target discovery loop (clone_dd.py main lines 314-330,
clone_rsync.py main lines 358-374). -/

/-- One polling iteration of the discovery loop: the whole-disk device
names lsblk currently reports, and the byte capacity blockdev
--getsize64 returns for each (none when the probe raises, as for an
empty card-reader slot). -/
structure Snapshot where
  devs : List String
  capacity : String → Option Nat

/-- Body of one polling iteration: for every newly appeared device
(current minus baseline) that is not yet a target and is not the source
disk, probe its capacity; a probe failure is skipped and a zero
capacity (empty slot) is filtered out, otherwise the device is appended
to the target list. -/
def poll_step (baseline : List String) (sourceName : String)
    (targets : List String) (snap : Snapshot) : List String :=
  snap.devs.foldl
    (fun acc dev =>
      if baseline.contains dev then acc
      else if acc.contains dev || dev == sourceName then acc
      else
        match snap.capacity dev with
        | none => acc
        | some n => if 0 < n then acc ++ [dev] else acc)
    targets

/-- Discovery loop of clone_dd.py and clone_rsync.py main: repeated
polling from an empty target list until the operator presses Enter. -/
def discover (baseline : List String) (sourceName : String)
    (polls : List Snapshot) : List String :=
  polls.foldl (poll_step baseline sourceName) []

lemma poll_step_spec (baseline : List String) (sourceName : String)
    (snap : Snapshot) (targets : List String) :
    ∀ t ∈ poll_step baseline sourceName targets snap,
      t ∈ targets ∨
        (t ≠ sourceName ∧ ∃ n, snap.capacity t = some n ∧ 0 < n) := by
  unfold poll_step
  generalize snap.devs = devs
  induction devs generalizing targets with
  | nil =>
    intro t ht
    exact Or.inl ht
  | cons d tl ih =>
    intro t ht
    rw [List.foldl_cons] at ht
    by_cases hb : baseline.contains d = true
    · rw [if_pos hb] at ht
      exact ih targets t ht
    · rw [if_neg hb] at ht
      by_cases hs : (targets.contains d || d == sourceName) = true
      · rw [if_pos hs] at ht
        exact ih targets t ht
      · rw [if_neg hs] at ht
        cases hc : snap.capacity d with
        | none =>
          simp only [hc] at ht
          exact ih targets t ht
        | some n =>
          simp only [hc] at ht
          by_cases hn : 0 < n
          · rw [if_pos hn] at ht
            rcases ih (targets ++ [d]) t ht with hmem | hnew
            · rcases List.mem_append.mp hmem with h1 | h2
              · exact Or.inl h1
              · have htd : t = d := by simpa using h2
                subst htd
                refine Or.inr ⟨?_, n, hc, hn⟩
                intro hts
                apply hs
                rw [hts]
                simp
            · exact Or.inr hnew
          · rw [if_neg hn] at ht
            exact ih targets t ht

/-- C10: every target the discovery loop produces differs from the
source whole-disk device name and reported a strictly positive capacity
in the polling iteration that admitted it, so the source is never a
candidate and empty card-reader slots are filtered out. -/
theorem discovery_invariant (baseline : List String) (sourceName : String)
    (polls : List Snapshot) :
    ∀ t ∈ discover baseline sourceName polls,
      t ≠ sourceName ∧
        ∃ snap ∈ polls, ∃ n, snap.capacity t = some n ∧ 0 < n := by
  unfold discover
  suffices h : ∀ (acc : List String) (t : String),
      t ∈ polls.foldl (poll_step baseline sourceName) acc →
      t ∈ acc ∨ (t ≠ sourceName ∧
        ∃ snap ∈ polls, ∃ n, snap.capacity t = some n ∧ 0 < n) by
    intro t ht
    rcases h [] t ht with h1 | h2
    · exact absurd h1 (List.not_mem_nil t)
    · exact h2
  induction polls with
  | nil =>
    intro acc t ht
    exact Or.inl ht
  | cons s ps ih =>
    intro acc t ht
    rw [List.foldl_cons] at ht
    rcases ih (poll_step baseline sourceName acc s) t ht with h1 | h2
    · rcases poll_step_spec baseline sourceName s acc t h1 with hm | hn
      · exact Or.inl hm
      · exact Or.inr ⟨hn.1, s, List.mem_cons_self s ps, hn.2⟩
    · obtain ⟨hne, snap, hsnap, hcap⟩ := h2
      exact Or.inr ⟨hne, snap, List.mem_cons_of_mem s hsnap, hcap⟩

/-- Witness for C10: one poll reporting a fresh 16 GB card sdc next to
the source sdb, evaluated through the invariant. -/
theorem discovery_invariant_witness :
    "sdc" ≠ "sdb" ∧
      ∃ snap ∈ [Snapshot.mk ["sdb", "sdc", "sdd"]
        (fun d => if d == "sdc" then some 16000000000 else
          if d == "sdd" then some 0 else none)],
        ∃ n, snap.capacity "sdc" = some n ∧ 0 < n :=
  discovery_invariant ["sdb"] "sdb"
    [Snapshot.mk ["sdb", "sdc", "sdd"]
      (fun d => if d == "sdc" then some 16000000000 else
        if d == "sdd" then some 0 else none)]
    "sdc" (by decide)

end Clonewars
